import Mathlib

/-!
Verification development for the reminder ("lembrete") application.

The two pure-logic components documented by this repository's specification
are embedded below:

* the autosuggestion engine of `src/app/services/aiService.ts`
  (`gerarSugestoes` and its helpers), translated function by function;
* the date-mask routines `format_input` / `is_valid_date`, whose
  implementation file is not among the provided sources and which are
  therefore modelled from the specification text.

Strings are Lean `String`s (a list of unicode scalar values); every
JavaScript string operation used by the source (`toLowerCase`, `split(' ')`,
`includes`, `startsWith`, `trim`, `slice`) is given an explicit executable
model on `List Char`.
-/

namespace Lembretes

/-- The `Lembrete` record of `aiService.ts` (`interface Lembrete`). Only the
`texto` field is read by the suggestion engine. -/
structure Lembrete where
  id : Int
  texto : String
  data : String
  prioridade : Int
  concluido : Bool
  categoria : Option String
  descricao : Option String
deriving Repr, DecidableEq

/-- Model of JavaScript `String.prototype.toLowerCase` on one character,
for the ASCII and Latin-1 letters that occur in Portuguese text: `A`–`Z`
and `À`–`Þ` (except `×`) are shifted to their lowercase forms, every other
character is returned unchanged. -/
def jsCharToLower (c : Char) : Char :=
  let n := c.toNat
  if 65 ≤ n ∧ n ≤ 90 then Char.ofNat (n + 32)
  else if 192 ≤ n ∧ n ≤ 222 ∧ n ≠ 215 then Char.ofNat (n + 32)
  else c

/-- Model of JavaScript `s.toLowerCase()`: characterwise lowering. -/
def jsToLower (s : String) : String :=
  String.mk (s.data.map jsCharToLower)

/-- Model of the JavaScript whitespace class used by `String.prototype.trim`
(space, tab, line terminators, NBSP, the Unicode space separators, BOM). -/
def jsIsWhitespace (c : Char) : Bool :=
  [9, 10, 11, 12, 13, 32, 160, 5760,
   8192, 8193, 8194, 8195, 8196, 8197, 8198, 8199, 8200, 8201, 8202,
   8232, 8233, 8239, 8287, 12288, 65279].contains c.toNat

/-- Predicate `isBlank s` models the test `!s.trim()` of `gerarSugestoes`: the string
is empty or consists of whitespace only. -/
def isBlank (s : String) : Bool :=
  s.data.all jsIsWhitespace

/-- Model of JavaScript `s.split(sep)` for a single-character separator:
splits at every occurrence of `sep`, keeping empty pieces. -/
def splitOnChar (sep : Char) : List Char → List (List Char)
  | [] => [[]]
  | c :: rest =>
    let r := splitOnChar sep rest
    if c = sep then [] :: r
    else
      match r with
      | [] => [[c]]
      | w :: ws => (c :: w) :: ws

/-- Model of JavaScript `s.split(' ')` producing strings. -/
def splitOnSpace (s : String) : List String :=
  (splitOnChar ' ' s.data).map (fun cs => String.mk cs)

/-- Function `listPrefixEq pre l` models JavaScript `l.startsWith(pre)` on
character lists. -/
def listPrefixEq : List Char → List Char → Bool
  | [], _ => true
  | _ :: _, [] => false
  | a :: as, b :: bs => a == b && listPrefixEq as bs

/-- Function `jsIncludes hay needle` models JavaScript `hay.includes(needle)`:
`needle` occurs contiguously inside `hay`. -/
def jsIncludes : List Char → List Char → Bool
  | hay, needle =>
    match hay with
    | [] => needle.isEmpty
    | _ :: t => listPrefixEq needle hay || jsIncludes t needle

/-- Bank `SUGESTOES_PADRAO` of `aiService.ts`, verbatim (note that `Verificar`
and `Confirmar` each occur twice in the source list). -/
def SUGESTOES_PADRAO : List String :=
  ["Lembre-se de", "Verificar", "Confirmar", "Agendar", "Preparar",
   "Revisar", "Comprar", "Pagar", "Enviar", "Receber",
   "Entregar", "Participar", "Organizar", "Limpar", "Atualizar",
   "Verificar", "Confirmar", "Finalizar", "Iniciar", "Continuar"]

/-- Bank `PADROES_COMUNS` of `aiService.ts`, verbatim. -/
def PADROES_COMUNS : List String :=
  ["Reunião com", "Prazo para", "Entrega de", "Pagamento de", "Compra de",
   "Consulta com", "Aniversário de", "Evento:", "Projeto:", "Tarefa:",
   "Relatório de", "Apresentação para", "Treinamento de", "Manutenção de",
   "Revisão de"]

/-- Bank `CATEGORIAS_COMUNS` of `aiService.ts`, verbatim. -/
def CATEGORIAS_COMUNS : List String :=
  ["Trabalho", "Pessoal", "Saúde", "Finanças", "Família",
   "Amigos", "Estudos", "Lazer", "Casa", "Compras"]

/-- One step of the word-frequency count of `analisarPalavrasFrequentes`:
`palavras[palavra] = (palavras[palavra] || 0) + 1` on an association list
kept in own-property creation order. The word `__proto__` never becomes an
own property of the source's plain object — the assignment hits the
`Object.prototype.__proto__` accessor with a non-object value and is a
no-op — so it is never tallied. -/
def contarPalavra (contagem : List (String × Nat)) (palavra : String) :
    List (String × Nat) :=
  if palavra = "__proto__" then contagem
  else if contagem.any (fun kv => kv.1 == palavra) then
    contagem.map (fun kv => if kv.1 = palavra then (kv.1, kv.2 + 1) else kv)
  else contagem ++ [(palavra, 1)]

/-- The counting loops of `analisarPalavrasFrequentes`: every word of
length > 2 of every lowercased reminder text is tallied, in scan order. -/
def contarPalavrasLembretes (lembretes : List Lembrete) :
    List (String × Nat) :=
  lembretes.foldl
    (fun contagem lembrete =>
      ((splitOnSpace (jsToLower lembrete.texto)).filter
        (fun palavra => 2 < palavra.data.length)).foldl contarPalavra contagem)
    []

/-- Numeric value of a digit string (used to recognise and order the
array-index property keys of the count object). -/
def valorNumerico (cs : List Char) : Nat :=
  cs.foldl (fun n c => 10 * n + (c.toNat - 48)) 0

/-- Decides whether a string is a canonical array-index property key in the
sense of ECMA-262: `"0"`, or a digit string without a leading zero whose
value is below 2^32 - 1. Own properties with such keys are enumerated
before all other string keys by `Object.entries`. -/
def ehIndiceArray (s : String) : Bool :=
  match s.data with
  | [] => false
  | ['0'] => true
  | c :: _ => s.data.all Char.isDigit && c != '0'
      && decide (valorNumerico s.data < 4294967295)

/-- Insertion into a list of count entries sorted by ascending numeric key
value (array-index keys are pairwise distinct, so ties cannot occur). -/
def insereIndice (x : String × Nat) :
    List (String × Nat) → List (String × Nat)
  | [] => [x]
  | y :: ys =>
    if valorNumerico x.1.data ≤ valorNumerico y.1.data then x :: y :: ys
    else y :: insereIndice x ys

/-- Sorts count entries by ascending numeric key value. -/
def ordenaIndices (l : List (String × Nat)) : List (String × Nat) :=
  l.foldr insereIndice []

/-- Model of the `Object.entries` enumeration order of the source's plain
count object (ECMA-262 OrdinaryOwnPropertyKeys): entries whose key is a
canonical array index come first, in ascending numeric order, followed by
the remaining entries in property-creation order. -/
def objectEntries (contagem : List (String × Nat)) : List (String × Nat) :=
  ordenaIndices (contagem.filter (fun kv => ehIndiceArray kv.1))
    ++ contagem.filter (fun kv => !(ehIndiceArray kv.1))

/-- Stable insertion into a list sorted by descending count: the inserted
pair goes before every pair of equal or smaller count, modelling the stable
`sort(([, a], [, b]) => b - a)` of the source. -/
def insereOrdenado (x : String × Nat) :
    List (String × Nat) → List (String × Nat)
  | [] => [x]
  | y :: ys => if y.2 ≤ x.2 then x :: y :: ys else y :: insereOrdenado x ys

/-- Stable sort by descending count (insertion sort, processing the list
from the left). -/
def ordenaPorFrequencia (l : List (String × Nat)) : List (String × Nat) :=
  l.foldr insereOrdenado []

/-- Function `analisarPalavrasFrequentes` of `aiService.ts`: the ten most
frequent words (length > 2, case-insensitive) of the reminder texts. The
count object's entries are read back in `Object.entries` order — array-index
words first in ascending numeric order, then the rest in first-encountered
order — and stably sorted by descending count. -/
def analisarPalavrasFrequentes (lembretes : List Lembrete) : List String :=
  ((ordenaPorFrequencia (objectEntries (contarPalavrasLembretes lembretes))).take 10).map
    (fun kv => kv.1)

/-- Function `gerarSugestoesContexto` of `aiService.ts`: the three `forEach`/`push`
loops are rendered as filters in the source's push order (pattern bank,
then categories, then — only when the history is non-empty — the frequent
words). -/
def gerarSugestoesContexto (lembretes : List Lembrete)
    (palavras : List String) : List String :=
  (PADROES_COMUNS.filter (fun padrao =>
      palavras.any (fun palavra =>
        jsIncludes palavra.data (jsToLower padrao).data)))
  ++ ((CATEGORIAS_COMUNS.filter (fun categoria =>
      palavras.any (fun palavra =>
        jsIncludes palavra.data (jsToLower categoria).data))).map
        (fun categoria => "Categoria: " ++ categoria))
  ++ (if lembretes.isEmpty then []
      else (analisarPalavrasFrequentes lembretes).filter (fun palavra =>
        palavras.any (fun p => jsIncludes p.data (jsToLower palavra).data)))

/-- Function `gerarSugestoesPalavra` of `aiService.ts`: empty for a tail of fewer
than 2 characters, otherwise the bank entries whose lowercased form starts
with the tail, in the source's push order (categories rendered with the
`"Categoria: "` prefix; the prefix test is on the category name). -/
def gerarSugestoesPalavra (ultimaPalavra : String) : List String :=
  if ultimaPalavra.data.length < 2 then []
  else
    (SUGESTOES_PADRAO.filter (fun sugestao =>
        listPrefixEq ultimaPalavra.data (jsToLower sugestao).data))
    ++ (PADROES_COMUNS.filter (fun padrao =>
        listPrefixEq ultimaPalavra.data (jsToLower padrao).data))
    ++ ((CATEGORIAS_COMUNS.filter (fun categoria =>
        listPrefixEq ultimaPalavra.data (jsToLower categoria).data)).map
          (fun categoria => "Categoria: " ++ categoria))

/-- The union built inside `gerarSugestoesPadrao`: the three banks spread
into one list, categories rendered with the `"Categoria: "` prefix. -/
def sugestoesPadraoTodas : List String :=
  SUGESTOES_PADRAO ++ PADROES_COMUNS
    ++ CATEGORIAS_COMUNS.map (fun cat => "Categoria: " ++ cat)

/-- Function `gerarSugestoesPadrao` of `aiService.ts`. The source shuffles
`sugestoesPadraoTodas` with `sort(() => Math.random() - 0.5)` and takes the
first five; the outcome of the shuffle is passed in as `embaralhado`, and
theorems about this path quantify over the permutations of
`sugestoesPadraoTodas`. -/
def gerarSugestoesPadrao (embaralhado : List String) : List String :=
  embaralhado.take 5

/-- First-occurrence deduplication, the model of `[...new Set(l)]`. -/
def dedupFirst (l : List String) : List String :=
  l.foldl (fun acc s => if s ∈ acc then acc else acc ++ [s]) []

/-- The word list of `gerarSugestoes`:
`textoAtual.toLowerCase().split(' ')`. -/
def palavrasDe (textoAtual : String) : List String :=
  splitOnSpace (jsToLower textoAtual)

/-- The tail word of `gerarSugestoes`: `palavras[palavras.length - 1]`
(the word list of a split is never empty, so the default is never used). -/
def ultimaPalavraDe (textoAtual : String) : String :=
  ((palavrasDe textoAtual).getLast?).getD ""

/-- Function `gerarSugestoes` of `aiService.ts`, the exported entry point.
`embaralhado` is the shuffle outcome consumed by the blank-input path. -/
def gerarSugestoes (embaralhado : List String) (lembretes : List Lembrete)
    (textoAtual : String) : List String :=
  if isBlank textoAtual then gerarSugestoesPadrao embaralhado
  else
    let sugestoesContexto := gerarSugestoesContexto lembretes (palavrasDe textoAtual)
    let sugestoesPalavra := gerarSugestoesPalavra (ultimaPalavraDe textoAtual)
    (dedupFirst (sugestoesContexto ++ sugestoesPalavra)).take 5

/-- Modelled from the spec: the DateMask component's implementation file is
not among the provided sources. Re-inserts the two separators of the mask
into the digit-only string: one after the 2nd digit and one after the 4th,
each emitted only when further digits follow, so the output is a prefix of
the `DD/MM/YYYY` pattern. -/
def maskDigits (ds : List Char) : List Char :=
  if ds.length ≤ 2 then ds
  else if ds.length ≤ 4 then ds.take 2 ++ '/' :: ds.drop 2
  else ds.take 2 ++ '/' :: (ds.drop 2).take 2 ++ '/' :: ds.drop 4

/-- Modelled from the spec: `format_input` of the DateMask component (§4.1),
whose implementation file is not among the provided sources. Strips every
non-digit character, truncates to the first 8 remaining digits, and
re-inserts the mask separators after the 2nd and 4th digit. -/
def format_input (raw : String) : String :=
  String.mk (maskDigits ((raw.data.filter Char.isDigit).take 8))

/-- The standard Gregorian leap-year rule: divisible by 4, except
centuries unless divisible by 400. -/
def bissexto (ano : Nat) : Bool :=
  (ano % 4 == 0 && ano % 100 != 0) || ano % 400 == 0

/-- Number of days of a month, accounting for leap years. -/
def diasNoMes (mes ano : Nat) : Nat :=
  if mes = 2 then (if bissexto ano then 29 else 28)
  else if mes = 4 ∨ mes = 6 ∨ mes = 9 ∨ mes = 11 then 30
  else 31

/-- Parses a non-empty all-digit component as a natural number; any other
component is "not an integer" and parses to `none`. -/
def parseNat? (cs : List Char) : Option Nat :=
  if cs.isEmpty || !(cs.all Char.isDigit) then none
  else some (cs.foldl (fun n c => 10 * n + (c.toNat - 48)) 0)

/-- Modelled from the spec: `is_valid_date` of the DateMask component
(§4.1), whose implementation file is not among the provided sources.
Splits on `/` into day, month, year integers (anything else fails), and
checks month ∈ [1,12], day ∈ [1, days-in-month] with the Gregorian
leap-year rule, and year ∈ [1980, current-year + 10]; the current year is
passed in as `anoAtual`. -/
def is_valid_date (anoAtual : Nat) (formatted : String) : Bool :=
  match (splitOnChar '/' formatted.data).map parseNat? with
  | [some dia, some mes, some ano] =>
    decide (1 ≤ mes) && decide (mes ≤ 12) && decide (1 ≤ dia) &&
    decide (dia ≤ diasNoMes mes ano) && decide (1980 ≤ ano) &&
    decide (ano ≤ anoAtual + 10)
  | _ => false

/-! ### Helper lemmas -/

/-- Elements produced by the fold behind `dedupFirst` come from the
accumulator or from the list. -/
theorem mem_foldl_dedup {x : String} :
    ∀ (l acc : List String),
      x ∈ l.foldl (fun acc s => if s ∈ acc then acc else acc ++ [s]) acc →
      x ∈ acc ∨ x ∈ l := by
  intro l
  induction l with
  | nil => intro acc h; exact Or.inl h
  | cons a t ih =>
    intro acc h
    simp only [List.foldl_cons] at h
    rcases ih _ h with h1 | h1
    · by_cases ha : a ∈ acc
      · rw [if_pos ha] at h1; exact Or.inl h1
      · rw [if_neg ha] at h1
        rcases List.mem_append.1 h1 with h2 | h2
        · exact Or.inl h2
        · simp only [List.mem_singleton] at h2
          rw [h2]
          exact Or.inr (List.mem_cons_self a t)
    · exact Or.inr (List.mem_cons_of_mem _ h1)

/-- The fold behind `dedupFirst` preserves `Nodup` of the accumulator. -/
theorem nodup_foldl_dedup :
    ∀ (l acc : List String), acc.Nodup →
      (l.foldl (fun acc s => if s ∈ acc then acc else acc ++ [s]) acc).Nodup := by
  intro l
  induction l with
  | nil => intro acc h; exact h
  | cons a t ih =>
    intro acc h
    simp only [List.foldl_cons]
    apply ih
    by_cases ha : a ∈ acc
    · rw [if_pos ha]; exact h
    · rw [if_neg ha]
      refine List.Nodup.append h (List.nodup_singleton a) ?_
      intro b hb hb'
      simp only [List.mem_singleton] at hb'
      subst hb'
      exact ha hb

/-- Function `dedupFirst` returns a duplicate-free list. -/
theorem dedupFirst_nodup (l : List String) : (dedupFirst l).Nodup :=
  nodup_foldl_dedup l [] List.nodup_nil

/-- Function `dedupFirst` only keeps elements of its input. -/
theorem mem_of_mem_dedupFirst {x : String} {l : List String}
    (h : x ∈ dedupFirst l) : x ∈ l := by
  rcases mem_foldl_dedup l [] h with h1 | h1
  · cases h1
  · exact h1

/-- A character of a matched prefix is a character of the larger list. -/
theorem mem_of_listPrefixEq {c : Char} :
    ∀ {pre l : List Char}, listPrefixEq pre l = true → c ∈ pre → c ∈ l := by
  intro pre
  induction pre with
  | nil => intro l _ hc; cases hc
  | cons a t ih =>
    intro l hp hc
    cases l with
    | nil => simp [listPrefixEq] at hp
    | cons b bs =>
      simp only [listPrefixEq, Bool.and_eq_true, beq_iff_eq] at hp
      rcases List.mem_cons.1 hc with rfl | hc2
      · rw [hp.1]; exact List.mem_cons_self b bs
      · exact List.mem_cons_of_mem _ (ih hp.2 hc2)

/-- A character of a matched substring is a character of the haystack. -/
theorem mem_of_jsIncludes {c : Char} :
    ∀ {hay needle : List Char}, jsIncludes hay needle = true → c ∈ needle → c ∈ hay := by
  intro hay
  induction hay with
  | nil =>
    intro needle h hc
    cases needle with
    | nil => cases hc
    | cons x xs => simp [jsIncludes, List.isEmpty] at h
  | cons a t ih =>
    intro needle h hc
    simp only [jsIncludes, Bool.or_eq_true] at h
    rcases h with h | h
    · exact mem_of_listPrefixEq h hc
    · exact List.mem_cons_of_mem _ (ih h hc)

/-- No piece produced by `splitOnChar` contains the separator. -/
theorem not_mem_splitOnChar {sep : Char} :
    ∀ {l w : List Char}, w ∈ splitOnChar sep l → sep ∉ w := by
  intro l
  induction l with
  | nil =>
    intro w hw
    simp only [splitOnChar, List.mem_singleton] at hw
    subst hw
    simp
  | cons c rest ih =>
    intro w hw
    simp only [splitOnChar] at hw
    by_cases hc : c = sep
    · rw [if_pos hc] at hw
      rcases List.mem_cons.1 hw with rfl | hw2
      · simp
      · exact ih hw2
    · rw [if_neg hc] at hw
      cases hr : splitOnChar sep rest with
      | nil =>
        rw [hr] at hw
        simp only [List.mem_singleton] at hw
        subst hw
        intro hmem
        simp only [List.mem_singleton] at hmem
        exact hc hmem.symm
      | cons w0 ws =>
        rw [hr] at hw
        rcases List.mem_cons.1 hw with rfl | hw2
        · intro hmem
          rcases List.mem_cons.1 hmem with hsep | hsep
          · exact hc hsep.symm
          · exact ih (hr ▸ List.mem_cons_self w0 ws) hsep
        · exact ih (hr ▸ List.mem_cons_of_mem _ hw2)

/-- No word of `splitOnSpace` contains a space. -/
theorem splitOnSpace_no_space {s w : String}
    (hw : w ∈ splitOnSpace s) : ' ' ∉ w.data := by
  rcases List.mem_map.1 hw with ⟨cs, hcs, rfl⟩
  exact not_mem_splitOnChar hcs

/-- Lowercasing preserves the presence of a space. -/
theorem space_mem_jsToLower {s : String} (h : ' ' ∈ s.data) :
    ' ' ∈ (jsToLower s).data :=
  List.mem_map.2 ⟨' ', h, by decide⟩

/-- One counting step keeps every key satisfying a predicate, provided the
tallied word satisfies it. -/
theorem contarPalavra_keys {P : String → Prop} {contagem : List (String × Nat)}
    {palavra : String} (hacc : ∀ kv ∈ contagem, P kv.1) (hp : P palavra) :
    ∀ kv ∈ contarPalavra contagem palavra, P kv.1 := by
  intro kv hkv
  unfold contarPalavra at hkv
  split at hkv
  · exact hacc kv hkv
  · split at hkv
    · rcases List.mem_map.1 hkv with ⟨kv0, hkv0, hmap⟩
      have hk : ((if kv0.1 = palavra then (kv0.1, kv0.2 + 1) else kv0)).1 = kv0.1 := by
        split <;> rfl
      rw [← hmap, hk]
      exact hacc kv0 hkv0
    · rcases List.mem_append.1 hkv with h | h
      · exact hacc kv h
      · simp only [List.mem_singleton] at h
        rw [h]
        exact hp

/-- The counting fold over a word list keeps every key satisfying a
predicate that all the words satisfy. -/
theorem foldl_contarPalavra_keys {P : String → Prop} :
    ∀ (ws : List String) (contagem : List (String × Nat)),
      (∀ kv ∈ contagem, P kv.1) → (∀ w ∈ ws, P w) →
      ∀ kv ∈ ws.foldl contarPalavra contagem, P kv.1 := by
  intro ws
  induction ws with
  | nil => intro c hc _ kv hkv; exact hc kv hkv
  | cons w t ih =>
    intro c hc hw kv hkv
    simp only [List.foldl_cons] at hkv
    exact ih _ (contarPalavra_keys hc (hw w (List.mem_cons_self w t)))
      (fun x hx => hw x (List.mem_cons_of_mem _ hx)) kv hkv

/-- Every key counted by `contarPalavrasLembretes` is a word of a split,
hence contains no space. -/
theorem contarPalavrasLembretes_no_space :
    ∀ (lembretes : List Lembrete) (contagem : List (String × Nat)),
      (∀ kv ∈ contagem, ' ' ∉ kv.1.data) →
      ∀ kv ∈ lembretes.foldl
        (fun contagem lembrete =>
          ((splitOnSpace (jsToLower lembrete.texto)).filter
            (fun palavra => 2 < palavra.data.length)).foldl contarPalavra contagem)
        contagem,
        ' ' ∉ kv.1.data := by
  intro lembretes
  induction lembretes with
  | nil => intro c hc kv hkv; exact hc kv hkv
  | cons lem t ih =>
    intro c hc kv hkv
    simp only [List.foldl_cons] at hkv
    refine ih _ ?_ kv hkv
    intro kv2 hkv2
    refine foldl_contarPalavra_keys (P := fun s => ' ' ∉ s.data) _ c hc ?_ kv2 hkv2
    intro w hw
    exact splitOnSpace_no_space (List.mem_filter.1 hw).1

/-- Stable insertion only adds the inserted pair. -/
theorem mem_insereOrdenado {z x : String × Nat} :
    ∀ {l : List (String × Nat)}, z ∈ insereOrdenado x l → z = x ∨ z ∈ l := by
  intro l
  induction l with
  | nil =>
    intro h
    simp only [insereOrdenado, List.mem_singleton] at h
    exact Or.inl h
  | cons y ys ih =>
    intro h
    unfold insereOrdenado at h
    split at h
    · rcases List.mem_cons.1 h with h2 | h2
      · exact Or.inl h2
      · exact Or.inr h2
    · rcases List.mem_cons.1 h with h2 | h2
      · rw [h2]; exact Or.inr (List.mem_cons_self y ys)
      · rcases ih h2 with h3 | h3
        · exact Or.inl h3
        · exact Or.inr (List.mem_cons_of_mem _ h3)

/-- Ascending-index insertion only adds the inserted pair. -/
theorem mem_insereIndice {z x : String × Nat} :
    ∀ {l : List (String × Nat)}, z ∈ insereIndice x l → z = x ∨ z ∈ l := by
  intro l
  induction l with
  | nil =>
    intro h
    simp only [insereIndice, List.mem_singleton] at h
    exact Or.inl h
  | cons y ys ih =>
    intro h
    unfold insereIndice at h
    split at h
    · rcases List.mem_cons.1 h with h2 | h2
      · exact Or.inl h2
      · exact Or.inr h2
    · rcases List.mem_cons.1 h with h2 | h2
      · rw [h2]; exact Or.inr (List.mem_cons_self y ys)
      · rcases ih h2 with h3 | h3
        · exact Or.inl h3
        · exact Or.inr (List.mem_cons_of_mem _ h3)

/-- The ascending-index sort only permutes: every element comes from the
input. -/
theorem mem_ordenaIndices {z : String × Nat} :
    ∀ {l : List (String × Nat)}, z ∈ ordenaIndices l → z ∈ l := by
  intro l
  induction l with
  | nil => intro h; exact h
  | cons x xs ih =>
    intro h
    unfold ordenaIndices at h
    simp only [List.foldr_cons] at h
    rcases mem_insereIndice h with h2 | h2
    · rw [h2]; exact List.mem_cons_self x xs
    · exact List.mem_cons_of_mem _ (ih h2)

/-- The reordering of `Object.entries` only permutes: every entry comes
from the count list. -/
theorem mem_objectEntries {z : String × Nat} {l : List (String × Nat)}
    (h : z ∈ objectEntries l) : z ∈ l := by
  unfold objectEntries at h
  rcases List.mem_append.1 h with h2 | h2
  · exact (List.mem_filter.1 (mem_ordenaIndices h2)).1
  · exact (List.mem_filter.1 h2).1

/-- The stable sort only permutes: every element comes from the input. -/
theorem mem_ordenaPorFrequencia {z : String × Nat} :
    ∀ {l : List (String × Nat)}, z ∈ ordenaPorFrequencia l → z ∈ l := by
  intro l
  induction l with
  | nil => intro h; exact h
  | cons x xs ih =>
    intro h
    unfold ordenaPorFrequencia at h
    simp only [List.foldr_cons] at h
    rcases mem_insereOrdenado h with h2 | h2
    · rw [h2]; exact List.mem_cons_self x xs
    · exact List.mem_cons_of_mem _ (ih h2)

/-- No frequent word reported by `analisarPalavrasFrequentes` contains a
space: they all come from splitting the reminder texts on spaces. -/
theorem analisar_no_space {lembretes : List Lembrete} {w : String}
    (h : w ∈ analisarPalavrasFrequentes lembretes) : ' ' ∉ w.data := by
  unfold analisarPalavrasFrequentes at h
  rcases List.mem_map.1 h with ⟨kv, hkv, hmap⟩
  rw [← hmap]
  exact contarPalavrasLembretes_no_space lembretes [] (by intro kv2 hkv2; cases hkv2)
    kv (mem_objectEntries (mem_ordenaPorFrequencia (List.mem_of_mem_take hkv)))

/-! ### Claim theorems -/

/-- C2: for every non-blank current input and every history, the result of
`gerarSugestoes` is the context-pass candidates followed by the prefix-pass
candidates, merged preserving first-occurrence order with exact duplicate
strings removed, truncated to the first 5; hence it never exceeds 5 entries
and contains no duplicates. -/
theorem gerarSugestoes_merge_dedup_take (embaralhado : List String)
    (lembretes : List Lembrete) (textoAtual : String)
    (h : isBlank textoAtual = false) :
    gerarSugestoes embaralhado lembretes textoAtual
      = (dedupFirst (gerarSugestoesContexto lembretes (palavrasDe textoAtual)
          ++ gerarSugestoesPalavra (ultimaPalavraDe textoAtual))).take 5
    ∧ (gerarSugestoes embaralhado lembretes textoAtual).length ≤ 5
    ∧ (gerarSugestoes embaralhado lembretes textoAtual).Nodup := by
  have heq : gerarSugestoes embaralhado lembretes textoAtual
      = (dedupFirst (gerarSugestoesContexto lembretes (palavrasDe textoAtual)
          ++ gerarSugestoesPalavra (ultimaPalavraDe textoAtual))).take 5 := by
    simp [gerarSugestoes, h]
  refine ⟨heq, ?_, ?_⟩
  · rw [heq, List.length_take]
    exact min_le_left _ _
  · rw [heq]
    exact (dedupFirst_nodup _).sublist (List.take_sublist _ _)

/-- Witness for C2 at the input `"Reu"` with empty history. -/
theorem gerarSugestoes_merge_dedup_take_witness :
    gerarSugestoes [] [] "Reu"
      = (dedupFirst (gerarSugestoesContexto [] (palavrasDe "Reu")
          ++ gerarSugestoesPalavra (ultimaPalavraDe "Reu"))).take 5
    ∧ (gerarSugestoes [] [] "Reu").length ≤ 5
    ∧ (gerarSugestoes [] [] "Reu").Nodup :=
  gerarSugestoes_merge_dedup_take [] [] "Reu" (by decide)

/-- C10: for every non-blank input and fixed history, `gerarSugestoes` is
deterministic — the shuffle outcome is consulted only on the blank-input
path, so two calls with different randomness agree. -/
theorem gerarSugestoes_deterministico (e1 e2 : List String)
    (lembretes : List Lembrete) (textoAtual : String)
    (h : isBlank textoAtual = false) :
    gerarSugestoes e1 lembretes textoAtual
      = gerarSugestoes e2 lembretes textoAtual := by
  simp [gerarSugestoes, h]

/-- Witness for C10: two different shuffle outcomes, same non-blank call. -/
theorem gerarSugestoes_deterministico_witness :
    gerarSugestoes ["Pagar"] [] "Reu" = gerarSugestoes [] [] "Reu" :=
  gerarSugestoes_deterministico ["Pagar"] [] [] "Reu" (by decide)

/-- C1 (amended): for empty history and blank input, `gerarSugestoes`
returns exactly 5 strings, each drawn from the union of the three static
banks, for every outcome of the shuffle; the entries need not be distinct
because `SUGESTOES_PADRAO` itself lists `Verificar` and `Confirmar`
twice. -/
theorem padrao_cinco_do_banco (embaralhado : List String) (textoAtual : String)
    (hperm : List.Perm embaralhado sugestoesPadraoTodas)
    (hb : isBlank textoAtual = true) :
    (gerarSugestoes embaralhado [] textoAtual).length = 5
    ∧ ∀ s ∈ gerarSugestoes embaralhado [] textoAtual, s ∈ sugestoesPadraoTodas := by
  have heq : gerarSugestoes embaralhado [] textoAtual = embaralhado.take 5 := by
    simp [gerarSugestoes, hb, gerarSugestoesPadrao]
  constructor
  · rw [heq, List.length_take, hperm.length_eq]
    decide
  · intro s hs
    rw [heq] at hs
    exact hperm.mem_iff.1 (List.mem_of_mem_take hs)

/-- Witness for C1 (amended): the identity shuffle on the empty input. -/
theorem padrao_cinco_do_banco_witness :
    (gerarSugestoes sugestoesPadraoTodas [] "").length = 5
    ∧ ∀ s ∈ gerarSugestoes sugestoesPadraoTodas [] "", s ∈ sugestoesPadraoTodas :=
  padrao_cinco_do_banco sugestoesPadraoTodas "" (List.Perm.refl _) (by decide)

/-- A shuffle outcome that brings the two copies of `Verificar` of
`SUGESTOES_PADRAO` to the front. -/
def embaralhadoRuim : List String :=
  "Verificar" :: "Verificar" ::
    ((sugestoesPadraoTodas.erase "Verificar").erase "Verificar")

/-- C1 counterexample: the claim promises 5 *distinct* strings for every
outcome of the randomness source, but `SUGESTOES_PADRAO` contains the entry
`Verificar` twice, so the shuffle outcome `embaralhadoRuim` — a permutation
of the bank union — makes `gerarSugestoes` return a list with a repeated
entry on the blank-input path. -/
theorem padrao_pode_repetir :
    List.Perm embaralhadoRuim sugestoesPadraoTodas
    ∧ ¬ (gerarSugestoes embaralhadoRuim [] "").Nodup := by
  constructor
  · have h1 : "Verificar" ∈ sugestoesPadraoTodas := by decide
    have h2 : "Verificar" ∈ sugestoesPadraoTodas.erase "Verificar" := by decide
    exact ((List.perm_cons_erase h1).trans
      ((List.perm_cons_erase h2).cons "Verificar")).symm
  · decide

/-- C7: `gerarSugestoes [] [] "Reu"` includes `"Reunião com"` and excludes
every bank entry that does not start with `"reu"` case-insensitively (the
result is exactly `["Reunião com"]`). -/
theorem sugestao_para_reu :
    gerarSugestoes [] [] "Reu" = ["Reunião com"]
    ∧ "Reunião com" ∈ gerarSugestoes [] [] "Reu"
    ∧ ∀ s ∈ sugestoesPadraoTodas,
        listPrefixEq "reu".data (jsToLower s).data = false →
        s ∉ gerarSugestoes [] [] "Reu" := by
  have heq : gerarSugestoes [] [] "Reu" = ["Reunião com"] := by decide
  refine ⟨heq, by rw [heq]; decide, ?_⟩
  intro s _ hpre
  rw [heq]
  simp only [List.mem_singleton]
  intro hcontra
  rw [hcontra] at hpre
  have : listPrefixEq "reu".data (jsToLower "Reunião com").data = true := by decide
  rw [this] at hpre
  cases hpre

/-- Witness for C7: `"Pagar"` does not start with `"reu"` and is excluded. -/
theorem sugestao_para_reu_witness :
    "Pagar" ∉ gerarSugestoes [] [] "Reu" :=
  sugestao_para_reu.2.2 "Pagar" (by decide) (by decide)

/-- C8: a non-blank input on which both passes produce nothing yields the
empty list — never the random default list, which only the blank-input path
produces — and in particular `gerarSugestoes [] [] "z"` is empty. -/
theorem entrada_sem_casamento_vazia :
    (∀ (embaralhado : List String) (lembretes : List Lembrete)
        (textoAtual : String),
      isBlank textoAtual = false →
      gerarSugestoesContexto lembretes (palavrasDe textoAtual) = [] →
      gerarSugestoesPalavra (ultimaPalavraDe textoAtual) = [] →
      gerarSugestoes embaralhado lembretes textoAtual = [])
    ∧ gerarSugestoes [] [] "z" = [] := by
  constructor
  · intro embaralhado lembretes textoAtual h hc hp
    simp [gerarSugestoes, h, hc, hp, dedupFirst]
  · decide

/-- Witness for C8: a non-matching single-letter input with a nonempty
shuffle outcome still yields the empty list. -/
theorem entrada_sem_casamento_vazia_witness :
    gerarSugestoes ["Pagar"] [] "z" = [] :=
  entrada_sem_casamento_vazia.1 ["Pagar"] [] "z" (by decide) (by decide) (by decide)

/-- C6: a tail of fewer than 2 characters disables the prefix pass and the
result then consists only of context-pass candidates; a tail of at least 2
characters makes the prefix pass return exactly the bank entries whose
lowercased form starts with the tail (a category is tested on its name and
rendered with the `"Categoria: "` prefix). -/
theorem ultima_palavra_prefixo :
    (∀ ultimaPalavra : String, ultimaPalavra.data.length < 2 →
      gerarSugestoesPalavra ultimaPalavra = [])
    ∧ (∀ (embaralhado : List String) (lembretes : List Lembrete)
          (textoAtual : String),
        isBlank textoAtual = false →
        (ultimaPalavraDe textoAtual).data.length < 2 →
        ∀ s ∈ gerarSugestoes embaralhado lembretes textoAtual,
          s ∈ gerarSugestoesContexto lembretes (palavrasDe textoAtual))
    ∧ (∀ (ultimaPalavra s : String), 2 ≤ ultimaPalavra.data.length →
        (s ∈ gerarSugestoesPalavra ultimaPalavra ↔
          ((s ∈ SUGESTOES_PADRAO ∨ s ∈ PADROES_COMUNS)
              ∧ listPrefixEq ultimaPalavra.data (jsToLower s).data = true)
          ∨ ∃ c, c ∈ CATEGORIAS_COMUNS ∧ s = "Categoria: " ++ c
              ∧ listPrefixEq ultimaPalavra.data (jsToLower c).data = true)) := by
  have h1 : ∀ ultimaPalavra : String, ultimaPalavra.data.length < 2 →
      gerarSugestoesPalavra ultimaPalavra = [] := by
    intro u hu
    unfold gerarSugestoesPalavra
    rw [if_pos hu]
  refine ⟨h1, ?_, ?_⟩
  · intro e l t hb hu s hs
    have heq : gerarSugestoes e l t
        = (dedupFirst (gerarSugestoesContexto l (palavrasDe t)
            ++ gerarSugestoesPalavra (ultimaPalavraDe t))).take 5 := by
      simp [gerarSugestoes, hb]
    rw [heq, h1 _ hu, List.append_nil] at hs
    exact mem_of_mem_dedupFirst (List.mem_of_mem_take hs)
  · intro u s hu
    unfold gerarSugestoesPalavra
    rw [if_neg (by omega)]
    constructor
    · intro hs
      rcases List.mem_append.1 hs with hs1 | hs2
      · rcases List.mem_append.1 hs1 with hsa | hsb
        · exact Or.inl ⟨Or.inl (List.mem_filter.1 hsa).1, (List.mem_filter.1 hsa).2⟩
        · exact Or.inl ⟨Or.inr (List.mem_filter.1 hsb).1, (List.mem_filter.1 hsb).2⟩
      · rcases List.mem_map.1 hs2 with ⟨c, hc, hmap⟩
        exact Or.inr ⟨c, (List.mem_filter.1 hc).1, hmap.symm,
          (List.mem_filter.1 hc).2⟩
    · intro hs
      rcases hs with ⟨hbank, hpre⟩ | ⟨c, hc, hrender, hpre⟩
      · rcases hbank with hb1 | hb2
        · exact List.mem_append.2 (Or.inl (List.mem_append.2
            (Or.inl (List.mem_filter.2 ⟨hb1, hpre⟩))))
        · exact List.mem_append.2 (Or.inl (List.mem_append.2
            (Or.inr (List.mem_filter.2 ⟨hb2, hpre⟩))))
      · exact List.mem_append.2 (Or.inr
          (List.mem_map.2 ⟨c, List.mem_filter.2 ⟨hc, hpre⟩, hrender.symm⟩))

/-- Witness for C6: instances at the one-character tail `"z"` and at the
two-character tail `"ve"`. -/
theorem ultima_palavra_prefixo_witness :
    gerarSugestoesPalavra "z" = []
    ∧ ("Verificar" ∈ gerarSugestoesPalavra "ve" ↔
        (("Verificar" ∈ SUGESTOES_PADRAO ∨ "Verificar" ∈ PADROES_COMUNS)
            ∧ listPrefixEq "ve".data (jsToLower "Verificar").data = true)
        ∨ ∃ c, c ∈ CATEGORIAS_COMUNS ∧ "Verificar" = "Categoria: " ++ c
            ∧ listPrefixEq "ve".data (jsToLower c).data = true) :=
  ⟨ultima_palavra_prefixo.1 "z" (by decide),
   ultima_palavra_prefixo.2.2 "ve" "Verificar" (by decide)⟩

/-- C9: the context pass never includes a pattern-bank phrase or category
name containing a space — the input is split on single spaces, so no input
word contains a space and the substring test fails for every space-bearing
entry; any space-containing string it emits is a rendered `"Categoria: "`
entry whose category name itself has no space. Multi-word entries such as
`"Reunião com"` can therefore only enter through the prefix pass. -/
theorem contexto_sem_espaco (lembretes : List Lembrete) (textoAtual : String)
    (s : String)
    (hs : s ∈ gerarSugestoesContexto lembretes (palavrasDe textoAtual))
    (hsp : ' ' ∈ s.data) :
    ∃ c, c ∈ CATEGORIAS_COMUNS ∧ s = "Categoria: " ++ c ∧ ' ' ∉ c.data := by
  unfold gerarSugestoesContexto at hs
  rcases List.mem_append.1 hs with hs1 | hs3
  · rcases List.mem_append.1 hs1 with hsa | hsb
    · exfalso
      have hfil := List.mem_filter.1 hsa
      rcases List.any_eq_true.1 hfil.2 with ⟨palavra, hpal, hinc⟩
      unfold palavrasDe at hpal
      exact splitOnSpace_no_space hpal
        (mem_of_jsIncludes hinc (space_mem_jsToLower hsp))
    · rcases List.mem_map.1 hsb with ⟨c, hc, hmap⟩
      refine ⟨c, (List.mem_filter.1 hc).1, hmap.symm, ?_⟩
      have hAll : ∀ c2 ∈ CATEGORIAS_COMUNS, ' ' ∉ c2.data := by decide
      exact hAll c (List.mem_filter.1 hc).1
  · exfalso
    split at hs3
    · cases hs3
    · exact analisar_no_space (List.mem_filter.1 hs3).1 hsp

/-- Witness for C9: the input `"trabalho"` makes the context pass emit the
rendered category `"Categoria: Trabalho"`, whose name has no space. -/
theorem contexto_sem_espaco_witness :
    ∃ c, c ∈ CATEGORIAS_COMUNS
      ∧ "Categoria: Trabalho" = "Categoria: " ++ c ∧ ' ' ∉ c.data :=
  contexto_sem_espaco [] "trabalho" "Categoria: Trabalho" (by decide) (by decide)

/-- Filtering the mask output back to digits recovers the digit list the
mask was built from. -/
theorem filter_maskDigits (ds : List Char) (hds : ∀ c ∈ ds, c.isDigit = true) :
    (maskDigits ds).filter Char.isDigit = ds := by
  have hTake : ∀ n : Nat, (ds.take n).filter Char.isDigit = ds.take n :=
    fun n => List.filter_eq_self.2
      (fun c hc => hds c (List.mem_of_mem_take hc))
  have hDrop : ∀ n : Nat, (ds.drop n).filter Char.isDigit = ds.drop n :=
    fun n => List.filter_eq_self.2
      (fun c hc => hds c (List.mem_of_mem_drop hc))
  have hMid : ((ds.drop 2).take 2).filter Char.isDigit = (ds.drop 2).take 2 :=
    List.filter_eq_self.2
      (fun c hc => hds c (List.mem_of_mem_drop (List.mem_of_mem_take hc)))
  have hslash : Char.isDigit '/' = false := by decide
  unfold maskDigits
  by_cases hA : ds.length ≤ 2
  · rw [if_pos hA]
    exact List.filter_eq_self.2 (by simpa using hds)
  · by_cases hB : ds.length ≤ 4
    · rw [if_neg hA, if_pos hB]
      simp only [List.filter_append, List.filter_cons, hslash,
        Bool.false_eq_true, if_false, hTake, hDrop]
      exact List.take_append_drop 2 ds
    · rw [if_neg hA, if_neg hB]
      have h42 : ds.drop 4 = (ds.drop 2).drop 2 := by
        rw [List.drop_drop]
      simp only [List.filter_append, List.filter_cons, hslash,
        Bool.false_eq_true, if_false, hTake, hDrop, hMid, List.append_assoc]
      rw [h42, List.take_append_drop 2 (ds.drop 2), List.take_append_drop 2 ds]

/-- C5 (spec-modelled): `format_input` strips every non-digit character,
truncates to the first 8 digits and re-inserts the mask separators; on a
digit string of length ≤ 8 the output carries exactly those digits in
order, shows the separators at output positions 2 and 5 once enough digits
exist, and has length `len + number-of-separators`; on arbitrary input it
is total and still preserves the (truncated) digit sequence. -/
theorem format_input_mascara :
    (∀ raw : String,
      (format_input raw).data.filter Char.isDigit
        = (raw.data.filter Char.isDigit).take 8)
    ∧ (∀ s : String, (∀ c ∈ s.data, c.isDigit = true) → s.data.length ≤ 8 →
        ((format_input s).data.filter Char.isDigit = s.data
         ∧ (2 < s.data.length → (format_input s).data[2]? = some '/')
         ∧ (4 < s.data.length → (format_input s).data[5]? = some '/')
         ∧ (format_input s).data.length
             = s.data.length
               + (if s.data.length ≤ 2 then 0
                  else if s.data.length ≤ 4 then 1 else 2))) := by
  constructor
  · intro raw
    exact filter_maskDigits _
      (fun c hc => (List.mem_filter.1 (List.mem_of_mem_take hc)).2)
  · intro s hdig hlen
    have hfs : (s.data.filter Char.isDigit).take 8 = s.data := by
      rw [List.filter_eq_self.2 (fun c hc => hdig c hc)]
      exact List.take_of_length_le hlen
    have hout : (format_input s).data = maskDigits s.data := by
      show maskDigits ((s.data.filter Char.isDigit).take 8) = maskDigits s.data
      rw [hfs]
    refine ⟨?_, ?_, ?_, ?_⟩
    · rw [hout]
      exact filter_maskDigits _ hdig
    · intro h2
      rw [hout]
      unfold maskDigits
      rw [if_neg (by omega)]
      by_cases hB : s.data.length ≤ 4
      · rw [if_pos hB]
        rw [List.getElem?_append_right (by rw [List.length_take]; omega)]
        rw [show (s.data.take 2).length = 2 from by rw [List.length_take]; omega]
        simp
      · rw [if_neg hB]
        rw [List.getElem?_append_left (by
          simp only [List.length_append, List.length_cons, List.length_take,
            List.length_drop]
          omega)]
        rw [List.getElem?_append_right (by rw [List.length_take]; omega)]
        rw [show (s.data.take 2).length = 2 from by rw [List.length_take]; omega]
        simp
    · intro h4
      rw [hout]
      unfold maskDigits
      rw [if_neg (by omega), if_neg (by omega)]
      rw [List.getElem?_append_right (by
        simp only [List.length_append, List.length_cons, List.length_take,
          List.length_drop]
        omega)]
      rw [show (s.data.take 2 ++ '/' :: (s.data.drop 2).take 2).length = 5 from by
        simp only [List.length_append, List.length_cons, List.length_take,
          List.length_drop]
        omega]
      simp
    · rw [hout]
      unfold maskDigits
      by_cases hA : s.data.length ≤ 2
      · rw [if_pos hA, if_pos hA]
        simp
      · by_cases hB : s.data.length ≤ 4
        · rw [if_neg hA, if_pos hB, if_neg hA, if_pos hB]
          simp only [List.length_append, List.length_cons, List.length_take,
            List.length_drop]
          omega
        · rw [if_neg hA, if_neg hB, if_neg hA, if_neg hB]
          simp only [List.length_append, List.length_cons, List.length_take,
            List.length_drop]
          omega

/-- Witness for C5 at the digit string `"31122024"`. -/
theorem format_input_mascara_witness :
    (format_input "31122024").data.filter Char.isDigit = "31122024".data
    ∧ (format_input "31122024").data[2]? = some '/'
    ∧ (format_input "31122024").data[5]? = some '/'
    ∧ (format_input "31122024").data.length = 10 :=
  have h := format_input_mascara.2 "31122024" (by decide) (by decide)
  ⟨h.1, h.2.1 (by decide), h.2.2.1 (by decide), by rw [h.2.2.2]; decide⟩

/-- C4 (spec-modelled): `is_valid_date` accepts exactly the strings whose
three `/`-separated components parse as integers forming a real calendar
date — month in [1,12], day in [1, days-in-month] with the Gregorian
leap-year rule — with year in [1980, current-year + 10]; the five examples
of the specification behave as stated, for every current year (the leap
example needs the current year ≥ 2014 so that 2024 is within the window). -/
theorem is_valid_date_caracterizacao (anoAtual : Nat) :
    (∀ s : String, is_valid_date anoAtual s = true ↔
      ∃ dia mes ano : Nat,
        (splitOnChar '/' s.data).map parseNat? = [some dia, some mes, some ano]
        ∧ 1 ≤ mes ∧ mes ≤ 12 ∧ 1 ≤ dia ∧ dia ≤ diasNoMes mes ano
        ∧ 1980 ≤ ano ∧ ano ≤ anoAtual + 10)
    ∧ (2014 ≤ anoAtual → is_valid_date anoAtual "29/02/2024" = true)
    ∧ is_valid_date anoAtual "29/02/2023" = false
    ∧ is_valid_date anoAtual "31/04/2024" = false
    ∧ is_valid_date anoAtual "15/13/2024" = false
    ∧ is_valid_date anoAtual "01/01/1979" = false := by
  refine ⟨?_, ?_, rfl, rfl, rfl, rfl⟩
  · intro s
    unfold is_valid_date
    constructor
    · intro h
      split at h
      · next dia mes ano heq =>
        simp only [Bool.and_eq_true, decide_eq_true_eq] at h
        exact ⟨dia, mes, ano, heq, by tauto⟩
      · exact Bool.noConfusion h
    · rintro ⟨dia, mes, ano, heq, h1, h2, h3, h4, h5, h6⟩
      rw [heq]
      simp only [Bool.and_eq_true, decide_eq_true_eq]
      tauto
  · intro h14
    have heq : is_valid_date anoAtual "29/02/2024"
        = decide (2024 ≤ anoAtual + 10) := rfl
    rw [heq, decide_eq_true_eq]
    omega

/-- Witness for C4 with the current year taken as 2026. -/
theorem is_valid_date_caracterizacao_witness :
    is_valid_date 2026 "29/02/2024" = true
    ∧ is_valid_date 2026 "29/02/2023" = false
    ∧ is_valid_date 2026 "31/04/2024" = false
    ∧ is_valid_date 2026 "15/13/2024" = false
    ∧ is_valid_date 2026 "01/01/1979" = false :=
  have h := is_valid_date_caracterizacao 2026
  ⟨h.2.1 (by decide), h.2.2.1, h.2.2.2.1, h.2.2.2.2.1, h.2.2.2.2.2⟩

end Lembretes
